import Mathlib

/-!
Verification of the Simulation Display Controller of the pipeline-webxr
repository, shallowly embedded from src/components/Scene.tsx and
src/components/SimulationResult.tsx.

A Babylon mesh is reduced to the data the controller observes: its name and
the enabled (visibility) flag driven by AbstractMesh.setEnabled.  The
simulation registry (a JS Map from type name to SimulationResult, iterated in
insertion order) is an insertion-ordered association list.  The asset source
(SupabaseUtils plus BABYLON.LoadAssetContainerAsync) is abstracted as, per
simulation type, a list of per-file outcomes: a file may resolve to a usable
mesh, may load without any usable mesh (the skip path of Scene.tsx lines
194-198), or may throw while fetching (which the try/catch of
fetchSimulationResults turns into an abort of the whole load).
-/

namespace PipelineWebXR

/-- One renderable mesh as the controller sees it: its name and the Babylon
enabled flag toggled through setEnabled. -/
structure Mesh where
  name : String
  enabled : Bool
deriving DecidableEq

/-- src/components/SimulationResult.tsx: one simulation type with its ordered
meshes and the index of the currently displayed variant. -/
structure SimulationResult where
  type : String
  meshes : List Mesh
  currentIndex : Nat
deriving DecidableEq

/-- The JS Map from simulation type name to SimulationResult, in insertion
order. -/
abbrev Registry := List (String × SimulationResult)

/-- Map.has. -/
def mapHas (reg : Registry) (k : String) : Bool :=
  reg.any (fun e => e.1 == k)

/-- Map.get (none when absent): the value of the first entry with the key. -/
def mapGet? : Registry → String → Option SimulationResult
  | [], _ => none
  | e :: rest, k => if e.1 == k then some e.2 else mapGet? rest k

/-- Map.set: replaces the value of an existing key in place, otherwise
appends at the end (JS insertion-order semantics). -/
def mapSet : Registry → String → SimulationResult → Registry
  | [], k, v => [(k, v)]
  | e :: rest, k, v => if e.1 == k then (k, v) :: rest else e :: mapSet rest k v

/-- In-place mutation of the SimulationResult object stored under a key
(Scene.tsx mutates the object obtained from Map.get). -/
def mapUpdate : Registry → String → (SimulationResult → SimulationResult) → Registry
  | [], _, _ => []
  | e :: rest, k, f => (if e.1 == k then (e.1, f e.2) else e) :: mapUpdate rest k f

/-- The mutable state of the Scene component that the controller owns:
simulationResultsRef, currentSimulationTypeRef, availableSimulationTypesRef,
and the scene meshes that are not tracked in the registry (floor, menu
holder, leftovers from aborted loads). -/
structure ControllerState where
  registry : Registry
  currentType : String
  availableTypes : List String
  sceneMeshes : List Mesh
deriving DecidableEq

/-- State at component start: empty registry, unset current type, and the
essential scene objects created during setup. -/
def initialState : ControllerState :=
  { registry := []
    currentType := ""
    availableTypes := []
    sceneMeshes := [{ name := "floor", enabled := true }, { name := "menuHolder", enabled := true }] }

/-- meshes[i].setEnabled(b): out-of-range indices change nothing, matching
the `if (simResult.meshes[i])` guards in Scene.tsx. -/
def setMeshEnabled : List Mesh → Nat → Bool → List Mesh
  | [], _, _ => []
  | m :: ms, 0, b => { m with enabled := b } :: ms
  | m :: ms, i + 1, b => m :: setMeshEnabled ms i b

/-- The visibility flags of a mesh list. -/
def flags (ms : List Mesh) : List Bool :=
  ms.map Mesh.enabled

/-- Pointwise update of a flag list (proof-side mirror of setMeshEnabled). -/
def setFlag : List Bool → Nat → Bool → List Bool
  | [], _, _ => []
  | _ :: bs, 0, b => b :: bs
  | c :: bs, i + 1, b => c :: setFlag bs i b

/-- The flag list that is true exactly at position i (and all false when i is
out of range). -/
def oneHot : Nat → Nat → List Bool
  | 0, _ => []
  | n + 1, 0 => true :: List.replicate n false
  | n + 1, i + 1 => false :: oneHot n i

/-- Number of true flags. -/
def countTrue : List Bool → Nat
  | [] => 0
  | true :: bs => countTrue bs + 1
  | false :: bs => countTrue bs

/-- Total number of visible variants across every simulation type of the
registry. -/
def enabledMeshCount : Registry → Nat
  | [] => 0
  | e :: rest => countTrue (flags e.2.meshes) + enabledMeshCount rest

/-- mesh.setEnabled(false) applied to a whole mesh list. -/
def hideMeshes (ms : List Mesh) : List Mesh :=
  ms.map (fun m => { m with enabled := false })

/-- Scene.tsx hideAllSimulationResults (lines 277-283): disable every mesh of
every simulation type. -/
def hideAllSimulationResults (s : ControllerState) : ControllerState :=
  { s with registry := s.registry.map (fun e => (e.1, { e.2 with meshes := hideMeshes e.2.meshes })) }

/-- Enable meshes[currentIndex] of one SimulationResult. -/
def showMeshAt (r : SimulationResult) : SimulationResult :=
  { r with meshes := setMeshEnabled r.meshes r.currentIndex true }

/-- Scene.tsx showCurrentSimulationResult (lines 335-356): no-op when
currentType is unset or absent from the registry; otherwise hide everything
and enable meshes[currentIndex] of the current type. -/
def showCurrentSimulationResult (s : ControllerState) : ControllerState :=
  if s.currentType == "" || !(mapHas s.registry s.currentType) then s
  else
    let s1 := hideAllSimulationResults s
    { s1 with registry := mapUpdate s1.registry s.currentType showMeshAt }

/-- Advance one SimulationResult exactly as cycleSimulationResults does:
hide meshes[currentIndex], advance the index modulo the length, show the new
meshes[currentIndex].  (In JS a modulus of 0 would produce NaN; registry
entries always hold at least one mesh, see registryWF below.) -/
def cycleResult (r : SimulationResult) : SimulationResult :=
  let hidden := setMeshEnabled r.meshes r.currentIndex false
  let newIndex := (r.currentIndex + 1) % r.meshes.length
  { r with currentIndex := newIndex, meshes := setMeshEnabled hidden newIndex true }

/-- Scene.tsx cycleSimulationResults (lines 244-274). -/
def cycleSimulationResults (s : ControllerState) : ControllerState :=
  if s.currentType == "" || !(mapHas s.registry s.currentType) then s
  else { s with registry := mapUpdate s.registry s.currentType cycleResult }

/-- Scene.tsx switchSimulationType (lines 226-242): logging no-op when the
type is not registered, otherwise hide everything, set the current type and
show its current mesh. -/
def switchSimulationType (s : ControllerState) (simulationType : String) : ControllerState :=
  if !(mapHas s.registry simulationType) then s
  else
    showCurrentSimulationResult
      { hideAllSimulationResults s with currentType := simulationType }

/-- Scene meshes that clearPreviousModels keeps (Scene.tsx lines 309-316):
the floor, the menu holder and anything whose name contains "ground". -/
def isEssentialMesh (m : Mesh) : Bool :=
  m.name == "floor" || m.name == "menuHolder" || (m.name.splitOn "ground").length > 1

/-- The clear() protocol of fetchSimulationResults lines 69-72:
clearPreviousModels (dispose every registry mesh and every non-essential
scene mesh, Scene.tsx lines 286-332) followed by emptying the registry map.
Disposal removes a mesh from the model state. -/
def clearModels (s : ControllerState) : ControllerState :=
  { s with registry := [], sceneMeshes := s.sceneMeshes.filter isEssentialMesh }

/-- Per-file outcome of the asset source: the file resolves to a usable mesh
with the given name, or it loads without a usable mesh (skipped at Scene.tsx
lines 194-198), or fetching/loading throws (caught by the outer try/catch at
line 220). -/
inductive FileOutcome where
  | ok (name : String)
  | noMesh
  | fetchError
deriving DecidableEq

/-- A freshly loaded mesh: Scene.tsx hides every mesh on load
(setEnabled(false), lines 163 and 189). -/
def mkMesh (n : String) : Mesh :=
  { name := n, enabled := false }

/-- The inner file loop of fetchSimulationResults for one simulation type:
the loaded (hidden) meshes in file order, and whether a fetch threw before
the end of the list. -/
def collectMeshes : List FileOutcome → List Mesh × Bool
  | [] => ([], false)
  | FileOutcome.fetchError :: _ => ([], true)
  | FileOutcome.noMesh :: rest => collectMeshes rest
  | FileOutcome.ok n :: rest =>
    let c := collectMeshes rest
    (mkMesh n :: c.1, c.2)

/-- The outer type loop of fetchSimulationResults: for each type collect its
meshes; skip types with no meshes (empty file listings included); store a
SimulationResult with currentIndex 0 otherwise.  A thrown fetch aborts the
whole loop, returning the registry built so far together with the meshes the
aborted type had already added to the scene. -/
def loadTypes : Registry → List (String × List FileOutcome) → Registry × List Mesh × Bool
  | reg, [] => (reg, [], false)
  | reg, (t, files) :: rest =>
    let c := collectMeshes files
    if c.2 then (reg, c.1, true)
    else
      let reg1 :=
        if c.1.isEmpty then reg
        else mapSet reg t { type := t, meshes := c.1, currentIndex := 0 }
      loadTypes reg1 rest

/-- Scene.tsx fetchSimulationResults (lines 62-223), parameterised by the
asset source response: the listed simulation types in discovery order, each
with its per-file outcomes.  Runs the clear() protocol first; returns with
the cleared state when no types are listed; otherwise records all listed
type names in availableSimulationTypes, defaults currentType to the first
listed type when unset, loads every type, and (unless a thrown fetch aborted
the load) shows the current simulation result. -/
def fetchSimulationResults (s : ControllerState) (src : List (String × List FileOutcome)) : ControllerState :=
  let s0 := clearModels s
  if src.isEmpty then s0
  else
    let types := src.map Prod.fst
    let s1 := { s0 with
      availableTypes := types
      currentType := if s0.currentType == "" then types.headD "" else s0.currentType }
    match loadTypes [] src with
    | (reg, orphans, true) =>
      { s1 with registry := reg, sceneMeshes := s1.sceneMeshes ++ orphans }
    | (reg, orphans, false) =>
      showCurrentSimulationResult
        { s1 with registry := reg, sceneMeshes := s1.sceneMeshes ++ orphans }

/-- The keyboard trigger of setupManualTriggerHandling (Scene.tsx lines
864-886): on key T, if the current type is "default" switch to
availableSimulationTypes[1], otherwise switch to "default".  When
availableSimulationTypes[1] is undefined the switch receives undefined,
which no registry key equals, so it is a no-op. -/
def manualTriggerSwitch (s : ControllerState) : ControllerState :=
  if s.currentType == "default" then
    match s.availableTypes[1]? with
    | some t => switchSimulationType s t
    | none => s
  else switchSimulationType s "default"

/-- Modelled from the spec, for comparison with manualTriggerSwitch: the
cycleType operation the spec describes, which computes the next type in
discovery order after currentType (wrapping at the end of the list) and
calls switchType on it, and is a no-op with fewer than 2 registered types. -/
def specCycleType (s : ControllerState) : ControllerState :=
  if s.availableTypes.length < 2 then s
  else
    match s.availableTypes.findIdx? (fun t => t == s.currentType) with
    | some i =>
      switchSimulationType s ((s.availableTypes.getD ((i + 1) % s.availableTypes.length) ""))
    | none => s

/-- The two menu surfaces as driven by the deviceType/inXRSession effect of
Scene.tsx (lines 827-856): the spatial 3D menu holder enabled flag and the
visibility of the fullscreen 2D menu controls. -/
structure UIVisibility where
  spatialEnabled : Bool
  fullscreenVisible : Bool
deriving DecidableEq

/-- The output mapping of the deviceType/inXRSession effect: spatial UI
enabled iff in an XR session on a detected VR headset; fullscreen controls
visible iff not in an XR session, or in one on a non-headset device. -/
def updateUIVisibility (inXRSession : Bool) (deviceType : String) : UIVisibility :=
  let isVRHeadset := deviceType == "vr-headset"
  { spatialEnabled := inXRSession && isVRHeadset
    fullscreenVisible := !inXRSession || (inXRSession && !isVRHeadset) }

/-- Every mesh of the list is hidden. -/
def allDisabled (ms : List Mesh) : Bool :=
  ms.all (fun m => !m.enabled)

/-- No variant of any simulation type is visible. -/
def allHidden (reg : Registry) : Bool :=
  reg.all (fun e => allDisabled e.2.meshes)

/-- The entries keyed by the current type show exactly their
meshes[currentIndex], every other entry is fully hidden. -/
def exactlyCurrentVisible (reg : Registry) (cur : String) : Bool :=
  reg.all (fun e =>
    if e.1 == cur then flags e.2.meshes == oneHot e.2.meshes.length e.2.currentIndex
    else allDisabled e.2.meshes)

/-- Registry keys are pairwise distinct (JS Map keys are unique). -/
def nodupKeys : Registry → Bool
  | [] => true
  | e :: rest => !(mapHas rest e.1) && nodupKeys rest

/-- Well-formedness of one stored SimulationResult: at least one mesh and an
in-range currentIndex. -/
def entryWF (r : SimulationResult) : Bool :=
  decide (0 < r.meshes.length) && decide (r.currentIndex < r.meshes.length)

/-- Every stored SimulationResult is well-formed. -/
def registryWF (reg : Registry) : Bool :=
  reg.all (fun e => entryWF e.2)

/-- The guard shared by cycleSimulationResults and showCurrentSimulationResult:
a current type is set and registered. -/
def currentGuard (s : ControllerState) : Bool :=
  !(s.currentType == "") && mapHas s.registry s.currentType

/-- The inductive controller invariant: well-formed registry with unique
keys, and the current type shows exactly its current variant while every
other variant is hidden (everything is hidden when no registered type is
current). -/
def controllerInv (s : ControllerState) : Bool :=
  registryWF s.registry && nodupKeys s.registry &&
    (if currentGuard s then exactlyCurrentVisible s.registry s.currentType
     else allHidden s.registry)

/-- n successive cycleSimulationResults calls. -/
def cycleN : Nat → ControllerState → ControllerState
  | 0, s => s
  | n + 1, s => cycleN n (cycleSimulationResults s)

/-- No file of any listed type throws while fetching: the asset source
behaves as the interface of spec §6 describes (every file yields a
VisualHandle or a skip). -/
def outcomeIsErr : FileOutcome → Bool
  | FileOutcome.fetchError => true
  | _ => false

/-- A file resolves to a usable mesh. -/
def outcomeIsOk : FileOutcome → Bool
  | FileOutcome.ok _ => true
  | _ => false

/-- The whole asset-source response is free of thrown fetches. -/
def srcNoError (src : List (String × List FileOutcome)) : Bool :=
  src.all (fun e => e.2.all (fun f => !outcomeIsErr f))

/-- Controller states reachable through the public operations, from the
initial state, with loads whose asset source behaves as spec §6 describes
(per file: a usable mesh or a skip; the thrown-fetch abort path is analysed
separately with the load failure semantics). -/
inductive Reachable : ControllerState → Prop where
  | init : Reachable initialState
  | fetch {s : ControllerState} (h : Reachable s) (src : List (String × List FileOutcome))
      (hsrc : srcNoError src = true) : Reachable (fetchSimulationResults s src)
  | cycle {s : ControllerState} (h : Reachable s) : Reachable (cycleSimulationResults s)
  | switch {s : ControllerState} (h : Reachable s) (t : String) :
      Reachable (switchSimulationType s t)
  | clear {s : ControllerState} (h : Reachable s) : Reachable (clearModels s)
  | trigger {s : ControllerState} (h : Reachable s) : Reachable (manualTriggerSwitch s)

/-! ### Flag-level lemmas -/

theorem setMeshEnabled_length (ms : List Mesh) (i : Nat) (b : Bool) :
    (setMeshEnabled ms i b).length = ms.length := by
  induction ms generalizing i with
  | nil => rfl
  | cons m ms ih => cases i <;> simp [setMeshEnabled, ih]

theorem flags_setMeshEnabled (ms : List Mesh) (i : Nat) (b : Bool) :
    flags (setMeshEnabled ms i b) = setFlag (flags ms) i b := by
  induction ms generalizing i with
  | nil => rfl
  | cons m ms ih =>
    cases i with
    | zero => simp [setMeshEnabled, setFlag, flags]
    | succ i => simpa [setMeshEnabled, setFlag, flags] using ih i

theorem names_setMeshEnabled (ms : List Mesh) (i : Nat) (b : Bool) :
    (setMeshEnabled ms i b).map Mesh.name = ms.map Mesh.name := by
  induction ms generalizing i with
  | nil => rfl
  | cons m ms ih => cases i <;> simp [setMeshEnabled, ih]

theorem setFlag_length (bs : List Bool) (i : Nat) (b : Bool) :
    (setFlag bs i b).length = bs.length := by
  induction bs generalizing i with
  | nil => rfl
  | cons c bs ih => cases i <;> simp [setFlag, ih]

theorem setFlag_getElem? (bs : List Bool) (i j : Nat) (b : Bool) :
    (setFlag bs i b)[j]? = if i = j then bs[j]?.map (fun _ => b) else bs[j]? := by
  induction bs generalizing i j with
  | nil => simp [setFlag]
  | cons c bs ih =>
    cases i with
    | zero => cases j <;> simp [setFlag]
    | succ i =>
      cases j with
      | zero => simp [setFlag]
      | succ j => simpa [setFlag] using ih i j

theorem oneHot_length (n i : Nat) : (oneHot n i).length = n := by
  induction n generalizing i with
  | zero => rfl
  | succ n ih => cases i <;> simp [oneHot, ih]

theorem flags_length (ms : List Mesh) : (flags ms).length = ms.length := by
  simp [flags]

theorem flags_hideMeshes (ms : List Mesh) :
    flags (hideMeshes ms) = List.replicate ms.length false := by
  induction ms with
  | nil => rfl
  | cons m ms ih => simp [hideMeshes, flags, List.replicate] at ih ⊢; exact ih

theorem hideMeshes_length (ms : List Mesh) : (hideMeshes ms).length = ms.length := by
  simp [hideMeshes]

theorem allDisabled_iff_flags (ms : List Mesh) :
    allDisabled ms = true ↔ flags ms = List.replicate ms.length false := by
  induction ms with
  | nil => simp [allDisabled, flags]
  | cons m ms ih =>
    simp [allDisabled, flags, List.replicate] at ih ⊢
    cases h : m.enabled <;> simp [h, ih]

theorem setFlag_oneHot_false (n i : Nat) :
    setFlag (oneHot n i) i false = List.replicate n false := by
  induction n generalizing i with
  | zero => rfl
  | succ n ih =>
    cases i with
    | zero => simp [oneHot, setFlag, List.replicate]
    | succ i => simp [oneHot, setFlag, List.replicate, ih]

theorem setFlag_replicate_true (n i : Nat) :
    setFlag (List.replicate n false) i true = oneHot n i := by
  induction n generalizing i with
  | zero => rfl
  | succ n ih =>
    cases i with
    | zero => simp [oneHot, setFlag, List.replicate]
    | succ i => simp [oneHot, setFlag, List.replicate, ih]

theorem countTrue_replicate_false (n : Nat) : countTrue (List.replicate n false) = 0 := by
  induction n with
  | zero => rfl
  | succ n ih => simp [List.replicate, countTrue, ih]

theorem countTrue_oneHot (n i : Nat) :
    countTrue (oneHot n i) = if i < n then 1 else 0 := by
  induction n generalizing i with
  | zero => simp [oneHot, countTrue]
  | succ n ih =>
    cases i with
    | zero => simp [oneHot, countTrue, countTrue_replicate_false]
    | succ i => simp [oneHot, countTrue, ih, Nat.succ_lt_succ_iff]

theorem countTrue_allDisabled (ms : List Mesh) (h : allDisabled ms = true) :
    countTrue (flags ms) = 0 := by
  rw [(allDisabled_iff_flags ms).mp h, countTrue_replicate_false]

/-! ### Registry (Map) lemmas -/

theorem mapUpdate_keys (reg : Registry) (k : String) (f : SimulationResult → SimulationResult) :
    (mapUpdate reg k f).map Prod.fst = reg.map Prod.fst := by
  induction reg with
  | nil => rfl
  | cons e rest ih =>
    by_cases h : e.1 = k <;> simp [mapUpdate, h] at ih ⊢ <;> exact ih

theorem mapHas_mapUpdate (reg : Registry) (k a : String) (f : SimulationResult → SimulationResult) :
    mapHas (mapUpdate reg k f) a = mapHas reg a := by
  induction reg with
  | nil => rfl
  | cons e rest ih =>
    by_cases h : e.1 = k <;> simp [mapUpdate, mapHas, h] at ih ⊢ <;>
      by_cases ha : e.1 = a <;> simp [h, ha, ih]

theorem mapGet?_mapUpdate_self (reg : Registry) (k : String) (f : SimulationResult → SimulationResult) :
    mapGet? (mapUpdate reg k f) k = (mapGet? reg k).map f := by
  induction reg with
  | nil => rfl
  | cons e rest ih =>
    by_cases h : e.1 = k
    · simp [mapUpdate, mapGet?, h]
    · simpa [mapUpdate, mapGet?, h] using ih

theorem mapGet?_mapUpdate_ne (reg : Registry) (k a : String) (f : SimulationResult → SimulationResult)
    (h : a ≠ k) : mapGet? (mapUpdate reg k f) a = mapGet? reg a := by
  induction reg with
  | nil => rfl
  | cons e rest ih =>
    by_cases hk : e.1 = k
    · have ha : ¬(k = a) := fun hh => h hh.symm
      simpa [mapUpdate, mapGet?, hk, ha] using ih
    · by_cases ha : e.1 = a
      · simp [mapUpdate, mapGet?, hk, ha, h]
      · simpa [mapUpdate, mapGet?, hk, ha] using ih

theorem nodupKeys_mapUpdate (reg : Registry) (k : String) (f : SimulationResult → SimulationResult) :
    nodupKeys (mapUpdate reg k f) = nodupKeys reg := by
  induction reg with
  | nil => rfl
  | cons e rest ih =>
    by_cases h : e.1 = k <;>
      simp [mapUpdate, nodupKeys, h, mapHas_mapUpdate, ih]

theorem mapGet?_eq_none_of_not_has (reg : Registry) (k : String) (h : mapHas reg k = false) :
    mapGet? reg k = none := by
  induction reg with
  | nil => rfl
  | cons e rest ih =>
    simp [mapHas] at h
    simp [mapGet?, h.1]
    exact ih (by simpa [mapHas] using h.2)

theorem mapHas_of_get?_some (reg : Registry) (k : String) (r : SimulationResult)
    (h : mapGet? reg k = some r) : mapHas reg k = true := by
  by_cases hh : mapHas reg k = true
  · exact hh
  · rw [mapGet?_eq_none_of_not_has reg k (by simpa using hh)] at h; cases h

theorem mapSet_of_not_has (reg : Registry) (k : String) (v : SimulationResult)
    (h : mapHas reg k = false) : mapSet reg k v = reg ++ [(k, v)] := by
  induction reg with
  | nil => rfl
  | cons e rest ih =>
    simp [mapHas] at h
    simp [mapSet, h.1, ih (by simpa [mapHas] using h.2)]

theorem mapHas_mapSet (reg : Registry) (k a : String) (v : SimulationResult) :
    mapHas (mapSet reg k v) a = (k == a || mapHas reg a) := by
  induction reg with
  | nil => simp [mapSet, mapHas]
  | cons e rest ih =>
    simp only [mapHas] at ih
    by_cases h : e.1 = k
    · simp only [mapSet, beq_iff_eq, h, if_true, mapHas, List.any_cons]
      cases hb : (k == a) <;> simp [hb]
    · by_cases ha : e.1 = a
      · have hak : ¬(a = k) := fun hh => h (by rw [ha, hh])
        have hka : (k == a) = false := beq_eq_false_iff_ne.mpr (fun hh => hak hh.symm)
        simp [mapSet, mapHas, h, ha, hka]
        exact ⟨e.2, by simp [← ha, h]⟩
      · simp [mapSet, mapHas, h, ha, ih, Bool.or_left_comm]

theorem nodupKeys_mapSet (reg : Registry) (k : String) (v : SimulationResult)
    (h : nodupKeys reg = true) : nodupKeys (mapSet reg k v) = true := by
  induction reg with
  | nil => simp [mapSet, nodupKeys, mapHas]
  | cons e rest ih =>
    simp [nodupKeys] at h
    by_cases hk : e.1 = k
    · simp [mapSet, hk, nodupKeys, h.2, hk ▸ h.1]
    · have hka : ∀ a, mapHas (mapSet rest k v) a = (k == a || mapHas rest a) :=
        fun a => mapHas_mapSet rest k a v
      simp [mapSet, hk, nodupKeys, hka, h.1, ih h.2]
      exact fun hke => hk hke.symm

theorem mapHas_append (reg1 reg2 : Registry) (a : String) :
    mapHas (reg1 ++ reg2) a = (mapHas reg1 a || mapHas reg2 a) := by
  simp [mapHas]

/-! ### Operation-level lemmas -/

theorem allDisabled_hideMeshes (ms : List Mesh) : allDisabled (hideMeshes ms) = true := by
  rw [allDisabled_iff_flags, flags_hideMeshes, hideMeshes_length]

theorem hideAll_registry (s : ControllerState) :
    (hideAllSimulationResults s).registry
      = s.registry.map (fun e => (e.1, { e.2 with meshes := hideMeshes e.2.meshes })) := rfl

theorem hideAll_currentType (s : ControllerState) :
    (hideAllSimulationResults s).currentType = s.currentType := rfl

theorem mapHas_map_keyfixed (reg : Registry)
    (g : String × SimulationResult → SimulationResult) (a : String) :
    mapHas (reg.map (fun e => (e.1, g e))) a = mapHas reg a := by
  induction reg with
  | nil => rfl
  | cons e rest ih =>
    simp only [List.map_cons, mapHas, List.any_cons] at ih ⊢
    rw [ih]

theorem mapHas_hideAll (s : ControllerState) (a : String) :
    mapHas (hideAllSimulationResults s).registry a = mapHas s.registry a := by
  rw [hideAll_registry]
  exact mapHas_map_keyfixed s.registry _ a

theorem allHidden_hideAll (s : ControllerState) :
    allHidden (hideAllSimulationResults s).registry = true := by
  rw [hideAll_registry]
  induction s.registry with
  | nil => rfl
  | cons e rest ih =>
    simp only [List.map_cons, allHidden, List.all_cons, Bool.and_eq_true] at ih ⊢
    exact ⟨allDisabled_hideMeshes e.2.meshes, ih⟩

theorem registryWF_hideAll (s : ControllerState) (h : registryWF s.registry = true) :
    registryWF (hideAllSimulationResults s).registry = true := by
  rw [hideAll_registry]
  revert h
  induction s.registry with
  | nil => intro _; rfl
  | cons e rest ih =>
    intro h
    simp only [registryWF, List.map_cons, List.all_cons, Bool.and_eq_true] at h ⊢
    exact ⟨by simpa [entryWF, hideMeshes_length] using h.1, ih h.2⟩

theorem nodupKeys_map_keyfixed (reg : Registry)
    (g : String × SimulationResult → SimulationResult) :
    nodupKeys (reg.map (fun e => (e.1, g e))) = nodupKeys reg := by
  induction reg with
  | nil => rfl
  | cons e rest ih =>
    show (!(mapHas (rest.map _) _) && nodupKeys (rest.map _)) = _
    rw [mapHas_map_keyfixed, ih]
    rfl

theorem nodupKeys_hideAll (s : ControllerState) :
    nodupKeys (hideAllSimulationResults s).registry = nodupKeys s.registry := by
  simpa [hideAllSimulationResults] using
    nodupKeys_map_keyfixed s.registry (fun e => { e.2 with meshes := hideMeshes e.2.meshes })

theorem mapGet?_hideAll (s : ControllerState) (k : String) :
    mapGet? (hideAllSimulationResults s).registry k
      = (mapGet? s.registry k).map (fun r => { r with meshes := hideMeshes r.meshes }) := by
  show mapGet? (s.registry.map _) k = _
  induction s.registry with
  | nil => rfl
  | cons e rest ih =>
    by_cases h : e.1 = k <;> simp [mapGet?, h] <;> exact ih

theorem all_mapSet (p : String × SimulationResult → Bool) (reg : Registry) (k : String)
    (v : SimulationResult) (h : reg.all p = true) (hv : p (k, v) = true) :
    (mapSet reg k v).all p = true := by
  induction reg with
  | nil => simp only [mapSet, List.all_cons, List.all_nil, Bool.and_true]; exact hv
  | cons e rest ih =>
    simp only [List.all_cons, Bool.and_eq_true] at h
    cases hb : (e.1 == k)
    · rw [show mapSet (e :: rest) k v = e :: mapSet rest k v from by simp [mapSet, hb]]
      simp only [List.all_cons, Bool.and_eq_true]
      exact ⟨h.1, ih h.2⟩
    · rw [show mapSet (e :: rest) k v = (k, v) :: rest from by simp [mapSet, hb]]
      simp only [List.all_cons, Bool.and_eq_true]
      exact ⟨hv, h.2⟩

theorem registryWF_mapUpdate (reg : Registry) (k : String) (f : SimulationResult → SimulationResult)
    (h : registryWF reg = true) (hf : ∀ r, entryWF r = true → entryWF (f r) = true) :
    registryWF (mapUpdate reg k f) = true := by
  induction reg with
  | nil => rfl
  | cons e rest ih =>
    simp only [registryWF, List.all_cons, Bool.and_eq_true] at h
    cases hb : (e.1 == k)
    · rw [show mapUpdate (e :: rest) k f = e :: mapUpdate rest k f from by simp [mapUpdate, hb]]
      simp only [registryWF, List.all_cons, Bool.and_eq_true]
      exact ⟨h.1, ih h.2⟩
    · rw [show mapUpdate (e :: rest) k f = (e.1, f e.2) :: mapUpdate rest k f from by
        simp [mapUpdate, hb]]
      simp only [registryWF, List.all_cons, Bool.and_eq_true]
      exact ⟨hf e.2 h.1, ih h.2⟩

theorem showCurrent_currentType (s : ControllerState) :
    (showCurrentSimulationResult s).currentType = s.currentType := by
  unfold showCurrentSimulationResult
  split <;> rfl

theorem showCurrent_availableTypes (s : ControllerState) :
    (showCurrentSimulationResult s).availableTypes = s.availableTypes := by
  unfold showCurrentSimulationResult
  split <;> rfl

theorem showCurrent_sceneMeshes (s : ControllerState) :
    (showCurrentSimulationResult s).sceneMeshes = s.sceneMeshes := by
  unfold showCurrentSimulationResult
  split <;> rfl

theorem mapHas_showCurrent (s : ControllerState) (a : String) :
    mapHas (showCurrentSimulationResult s).registry a = mapHas s.registry a := by
  unfold showCurrentSimulationResult
  split
  · rfl
  · show mapHas (mapUpdate (hideAllSimulationResults s).registry _ _) a = _
    rw [mapHas_mapUpdate, mapHas_hideAll]

/-! ### Invariant preservation -/

theorem entryWF_showMeshAt (r : SimulationResult) (h : entryWF r = true) :
    entryWF (showMeshAt r) = true := by
  simpa [entryWF, showMeshAt, setMeshEnabled_length] using h

theorem entryWF_cycleResult (r : SimulationResult) (h : entryWF r = true) :
    entryWF (cycleResult r) = true := by
  simp [entryWF, cycleResult, setMeshEnabled_length] at h ⊢
  exact ⟨h.1, Nat.mod_lt _ h.1⟩

theorem exactlyCurrentVisible_update_show (reg : Registry) (cur : String)
    (hall : allHidden reg = true) :
    exactlyCurrentVisible (mapUpdate reg cur showMeshAt) cur = true := by
  induction reg with
  | nil => rfl
  | cons e rest ih =>
    simp only [allHidden, List.all_cons, Bool.and_eq_true] at hall
    cases hb : (e.1 == cur)
    · rw [show mapUpdate (e :: rest) cur showMeshAt = e :: mapUpdate rest cur showMeshAt from by
        simp [mapUpdate, hb]]
      simp only [exactlyCurrentVisible, List.all_cons, Bool.and_eq_true]
      refine ⟨?_, ih hall.2⟩
      simp only [hb, Bool.false_eq_true, if_false]
      exact hall.1
    · rw [show mapUpdate (e :: rest) cur showMeshAt
          = (e.1, showMeshAt e.2) :: mapUpdate rest cur showMeshAt from by simp [mapUpdate, hb]]
      simp only [exactlyCurrentVisible, List.all_cons, Bool.and_eq_true]
      refine ⟨?_, ih hall.2⟩
      have hf := (allDisabled_iff_flags e.2.meshes).mp hall.1
      simp [showMeshAt, hb, flags_setMeshEnabled, setMeshEnabled_length, hf,
        setFlag_replicate_true]

theorem exactlyCurrentVisible_update_cycle (reg : Registry) (cur : String)
    (hvis : exactlyCurrentVisible reg cur = true) :
    exactlyCurrentVisible (mapUpdate reg cur cycleResult) cur = true := by
  induction reg with
  | nil => rfl
  | cons e rest ih =>
    simp only [exactlyCurrentVisible, List.all_cons, Bool.and_eq_true] at hvis
    cases hb : (e.1 == cur)
    · rw [show mapUpdate (e :: rest) cur cycleResult = e :: mapUpdate rest cur cycleResult from by
        simp [mapUpdate, hb]]
      simp only [exactlyCurrentVisible, List.all_cons, Bool.and_eq_true]
      refine ⟨?_, ih hvis.2⟩
      have h1 := hvis.1
      simp only [hb, Bool.false_eq_true, if_false] at h1 ⊢
      exact h1
    · rw [show mapUpdate (e :: rest) cur cycleResult
          = (e.1, cycleResult e.2) :: mapUpdate rest cur cycleResult from by simp [mapUpdate, hb]]
      simp only [exactlyCurrentVisible, List.all_cons, Bool.and_eq_true]
      refine ⟨?_, ih hvis.2⟩
      have h1 := hvis.1
      simp only [hb, if_true] at h1
      have hf : flags e.2.meshes = oneHot e.2.meshes.length e.2.currentIndex := by
        simpa using h1
      simp [cycleResult, hb, flags_setMeshEnabled, setMeshEnabled_length, hf,
        setFlag_oneHot_false, setFlag_replicate_true]

theorem guard_negb (s : ControllerState) :
    (s.currentType == "" || !(mapHas s.registry s.currentType)) = !(currentGuard s) := by
  cases h1 : (s.currentType == "") <;> cases h2 : mapHas s.registry s.currentType <;>
    simp [currentGuard, h1, h2]

theorem controllerInv_showCurrent (s : ControllerState) (hWF : registryWF s.registry = true)
    (hnd : nodupKeys s.registry = true) (hall : allHidden s.registry = true) :
    controllerInv (showCurrentSimulationResult s) = true := by
  unfold showCurrentSimulationResult
  cases hg : (s.currentType == "" || !(mapHas s.registry s.currentType))
  · have hgt : currentGuard s = true := by
      rw [guard_negb] at hg
      cases hcg : currentGuard s
      · rw [hcg] at hg; cases hg
      · rfl
    simp only [hg, Bool.false_eq_true, if_false]
    have h1 : registryWF (mapUpdate (hideAllSimulationResults s).registry s.currentType showMeshAt) = true :=
      registryWF_mapUpdate _ _ _ (registryWF_hideAll s hWF) entryWF_showMeshAt
    have h2 : nodupKeys (mapUpdate (hideAllSimulationResults s).registry s.currentType showMeshAt) = true := by
      rw [nodupKeys_mapUpdate, nodupKeys_hideAll]; exact hnd
    have h4 : exactlyCurrentVisible
        (mapUpdate (hideAllSimulationResults s).registry s.currentType showMeshAt) s.currentType = true :=
      exactlyCurrentVisible_update_show _ _ (allHidden_hideAll s)
    have h3 : mapHas (mapUpdate (hideAllSimulationResults s).registry s.currentType showMeshAt) s.currentType = true := by
      rw [mapHas_mapUpdate, mapHas_hideAll]
      simp [currentGuard] at hgt
      exact hgt.2
    have h5 : ¬(s.currentType = "") := by
      simp [currentGuard] at hgt
      simpa using hgt.1
    simp [controllerInv, currentGuard, hideAll_currentType, h1, h2, h3, h4, h5]
  · simp only [hg, if_true]
    have hgf : currentGuard s = false := by
      rw [guard_negb] at hg
      cases hcg : currentGuard s
      · rfl
      · rw [hcg] at hg; cases hg
    simp [controllerInv, hgf, hWF, hnd, hall]

theorem controllerInv_clear (s : ControllerState) : controllerInv (clearModels s) = true := by
  simp [controllerInv, clearModels, registryWF, nodupKeys, currentGuard, mapHas, allHidden]

theorem controllerInv_cycle (s : ControllerState) (h : controllerInv s = true) :
    controllerInv (cycleSimulationResults s) = true := by
  unfold cycleSimulationResults
  cases hg : (s.currentType == "" || !(mapHas s.registry s.currentType))
  · have hgt : currentGuard s = true := by
      rw [guard_negb] at hg
      cases hcg : currentGuard s
      · rw [hcg] at hg; cases hg
      · rfl
    simp only [hg, Bool.false_eq_true, if_false]
    simp only [controllerInv, hgt, if_true, Bool.and_eq_true] at h
    have h1 : registryWF (mapUpdate s.registry s.currentType cycleResult) = true :=
      registryWF_mapUpdate _ _ _ h.1.1 entryWF_cycleResult
    have h2 : nodupKeys (mapUpdate s.registry s.currentType cycleResult) = true := by
      rw [nodupKeys_mapUpdate]; exact h.1.2
    have h4 : exactlyCurrentVisible (mapUpdate s.registry s.currentType cycleResult) s.currentType = true :=
      exactlyCurrentVisible_update_cycle _ _ h.2
    have h3 : mapHas (mapUpdate s.registry s.currentType cycleResult) s.currentType = true := by
      rw [mapHas_mapUpdate]
      simp [currentGuard] at hgt
      exact hgt.2
    have h5 : (s.currentType == "") = false := by
      simp [currentGuard] at hgt
      simpa using hgt.1
    simp [controllerInv, currentGuard, h1, h2, h3, h4, h5]
  · simpa only [hg, if_true] using h

theorem controllerInv_switch (s : ControllerState) (t : String) (h : controllerInv s = true) :
    controllerInv (switchSimulationType s t) = true := by
  unfold switchSimulationType
  cases hg : (!(mapHas s.registry t))
  · simp only [controllerInv, Bool.and_eq_true] at h
    simp only [hg, Bool.false_eq_true, if_false]
    exact controllerInv_showCurrent _ (registryWF_hideAll s h.1.1)
      (by rw [nodupKeys_hideAll]; exact h.1.2) (allHidden_hideAll s)
  · simpa only [hg, if_true] using h

theorem collectMeshes_disabled (files : List FileOutcome) :
    ∀ m ∈ (collectMeshes files).1, m.enabled = false := by
  induction files with
  | nil => simp [collectMeshes]
  | cons f rest ih =>
    cases f with
    | ok n =>
      intro m hm
      simp only [collectMeshes, List.mem_cons] at hm
      cases hm with
      | inl h => rw [h]; rfl
      | inr h => exact ih m h
    | noMesh => simpa [collectMeshes] using ih
    | fetchError => simp [collectMeshes]

theorem collectMeshes_noError (files : List FileOutcome)
    (h : files.all (fun f => !outcomeIsErr f) = true) : (collectMeshes files).2 = false := by
  induction files with
  | nil => rfl
  | cons f rest ih =>
    simp only [List.all_cons, Bool.and_eq_true] at h
    cases f with
    | ok n => simpa [collectMeshes] using ih h.2
    | noMesh => simpa [collectMeshes] using ih h.2
    | fetchError => simp [outcomeIsErr] at h

theorem loadTypes_noAbort (src : List (String × List FileOutcome))
    (h : srcNoError src = true) : ∀ reg, (loadTypes reg src).2.2 = false := by
  induction src with
  | nil => intro reg; rfl
  | cons e rest ih =>
    intro reg
    obtain ⟨t, files⟩ := e
    simp only [srcNoError, List.all_cons, Bool.and_eq_true] at h
    have hc : (collectMeshes files).2 = false := collectMeshes_noError files h.1
    simp only [loadTypes, hc, Bool.false_eq_true, if_false]
    exact ih (by simpa [srcNoError] using h.2) _

theorem loadTypes_pres (p : String × SimulationResult → Bool)
    (hstore : ∀ t ms, ms.isEmpty = false → (∀ m ∈ ms, m.enabled = false) →
      p (t, { type := t, meshes := ms, currentIndex := 0 }) = true) :
    ∀ (src : List (String × List FileOutcome)) (reg : Registry),
      reg.all p = true → ((loadTypes reg src).1).all p = true := by
  intro src
  induction src with
  | nil => intro reg h; exact h
  | cons e rest ih =>
    intro reg h
    obtain ⟨t, files⟩ := e
    cases hc : (collectMeshes files).2
    · simp only [loadTypes, hc, Bool.false_eq_true, if_false]
      cases he : (collectMeshes files).1.isEmpty
      · simp only [he, Bool.false_eq_true, if_false]
        exact ih _ (all_mapSet p reg t _ h
          (hstore t (collectMeshes files).1 he (collectMeshes_disabled files)))
      · simp only [he, if_true]
        exact ih _ h
    · simp only [loadTypes, hc, if_true]
      exact h

theorem loadTypes_nodup (src : List (String × List FileOutcome)) :
    ∀ reg : Registry, nodupKeys reg = true → nodupKeys (loadTypes reg src).1 = true := by
  induction src with
  | nil => intro reg h; exact h
  | cons e rest ih =>
    intro reg h
    obtain ⟨t, files⟩ := e
    cases hc : (collectMeshes files).2
    · simp only [loadTypes, hc, Bool.false_eq_true, if_false]
      cases he : (collectMeshes files).1.isEmpty
      · simp only [he, Bool.false_eq_true, if_false]
        exact ih _ (nodupKeys_mapSet reg t _ h)
      · simp only [he, if_true]
        exact ih _ h
    · simp only [loadTypes, hc, if_true]
      exact h

theorem allDisabled_of_forall (ms : List Mesh) (h : ∀ m ∈ ms, m.enabled = false) :
    allDisabled ms = true := by
  simp only [allDisabled, List.all_eq_true]
  intro m hm
  simp [h m hm]

theorem controllerInv_fetch (s : ControllerState) (src : List (String × List FileOutcome))
    (hsrc : srcNoError src = true) : controllerInv (fetchSimulationResults s src) = true := by
  unfold fetchSimulationResults
  cases hemp : src.isEmpty
  · simp only [hemp, Bool.false_eq_true, if_false]
    have hWF : registryWF (loadTypes [] src).1 = true :=
      loadTypes_pres _ (fun t ms hms _ => by
        simp [entryWF]
        simpa [List.isEmpty_iff_length_eq_zero, Nat.pos_iff_ne_zero] using hms) src [] rfl
    have hnd : nodupKeys (loadTypes [] src).1 = true := loadTypes_nodup src [] rfl
    have hall : allHidden (loadTypes [] src).1 = true :=
      loadTypes_pres _ (fun t ms _ hdis => allDisabled_of_forall ms hdis) src [] rfl
    have hab : (loadTypes [] src).2.2 = false := loadTypes_noAbort src hsrc []
    rcases hLT : loadTypes [] src with ⟨reg, orphans, ab⟩
    rw [hLT] at hWF hnd hall hab
    simp only at hab
    subst hab
    simp only
    exact controllerInv_showCurrent _ hWF hnd hall
  · simp only [hemp, if_true]
    exact controllerInv_clear s

theorem controllerInv_trigger (s : ControllerState) (h : controllerInv s = true) :
    controllerInv (manualTriggerSwitch s) = true := by
  unfold manualTriggerSwitch
  cases hd : (s.currentType == "default")
  · simp only [hd, Bool.false_eq_true, if_false]
    exact controllerInv_switch s "default" h
  · simp only [hd, if_true]
    cases hv : s.availableTypes[1]? with
    | some t => exact controllerInv_switch s t h
    | none => exact h

theorem reachable_controllerInv {s : ControllerState} (h : Reachable s) :
    controllerInv s = true := by
  induction h with
  | init => decide
  | fetch h src hsrc ih => exact controllerInv_fetch _ src hsrc
  | cycle h ih => exact controllerInv_cycle _ ih
  | switch h t ih => exact controllerInv_switch _ t ih
  | clear h ih => exact controllerInv_clear _
  | trigger h ih => exact controllerInv_trigger _ ih

/-! ### Counting visible variants -/

theorem enabledMeshCount_allHidden (reg : Registry) (h : allHidden reg = true) :
    enabledMeshCount reg = 0 := by
  induction reg with
  | nil => rfl
  | cons e rest ih =>
    simp only [allHidden, List.all_cons, Bool.and_eq_true] at h
    simp [enabledMeshCount, countTrue_allDisabled e.2.meshes h.1, ih h.2]

theorem exact_nocur_allHidden (reg : Registry) (cur : String)
    (hvis : exactlyCurrentVisible reg cur = true) (hhas : mapHas reg cur = false) :
    allHidden reg = true := by
  induction reg with
  | nil => rfl
  | cons e rest ih =>
    simp only [exactlyCurrentVisible, List.all_cons, Bool.and_eq_true] at hvis
    simp only [mapHas, List.any_cons, Bool.or_eq_false_iff] at hhas
    simp only [allHidden, List.all_cons, Bool.and_eq_true]
    refine ⟨?_, ih hvis.2 (by simpa [mapHas] using hhas.2)⟩
    have h1 := hvis.1
    simp only [hhas.1, Bool.false_eq_true, if_false] at h1
    exact h1

theorem mapGet?_some_mem (reg : Registry) (k : String) (r : SimulationResult)
    (h : mapGet? reg k = some r) : (k, r) ∈ reg := by
  induction reg with
  | nil => cases h
  | cons e rest ih =>
    by_cases hk : e.1 = k
    · simp only [mapGet?, hk, beq_self_eq_true, if_true, Option.some.injEq] at h
      rw [← hk, ← h]
      simp
    · simp only [mapGet?, beq_iff_eq, hk, if_false] at h
      exact List.mem_cons_of_mem e (ih h)

theorem mapGet?_some_of_has (reg : Registry) (k : String) (h : mapHas reg k = true) :
    ∃ r, mapGet? reg k = some r := by
  induction reg with
  | nil => cases h
  | cons e rest ih =>
    by_cases hk : e.1 = k
    · exact ⟨e.2, by simp [mapGet?, hk]⟩
    · simp only [mapHas, List.any_cons] at h
      have hb : (e.1 == k) = false := beq_eq_false_iff_ne.mpr hk
      rw [hb, Bool.false_or] at h
      obtain ⟨r, hr⟩ := ih h
      exact ⟨r, by simpa [mapGet?, hk] using hr⟩

theorem enabledMeshCount_exact_single (reg : Registry) (cur : String) (r0 : SimulationResult)
    (hvis : exactlyCurrentVisible reg cur = true) (hnd : nodupKeys reg = true)
    (hget : mapGet? reg cur = some r0) (hidx : r0.currentIndex < r0.meshes.length) :
    enabledMeshCount reg = 1 := by
  induction reg with
  | nil => cases hget
  | cons e rest ih =>
    simp only [exactlyCurrentVisible, List.all_cons, Bool.and_eq_true] at hvis
    simp only [nodupKeys, Bool.and_eq_true] at hnd
    by_cases hk : e.1 = cur
    · simp only [mapGet?, hk, beq_self_eq_true, if_true, Option.some.injEq] at hget
      have h1 := hvis.1
      simp only [hk, beq_self_eq_true, if_true] at h1
      have hf : flags e.2.meshes = oneHot e.2.meshes.length e.2.currentIndex := by
        simpa using h1
      have hrest : mapHas rest cur = false := by
        have := hnd.1
        rw [hk] at this
        simpa using this
      have hallrest : allHidden rest = true := exact_nocur_allHidden rest cur hvis.2 hrest
      simp only [enabledMeshCount, hf, countTrue_oneHot,
        enabledMeshCount_allHidden rest hallrest]
      rw [← hget] at hidx
      simp [hidx]
    · have h1 := hvis.1
      simp only [beq_iff_eq, hk, if_false] at h1
      simp only [mapGet?, beq_iff_eq, hk, if_false] at hget
      simp [enabledMeshCount, countTrue_allDisabled e.2.meshes h1, ih hvis.2 hnd.2 hget]

/-! ### cycleN preservation -/

theorem cycle_currentType (s : ControllerState) :
    (cycleSimulationResults s).currentType = s.currentType := by
  unfold cycleSimulationResults
  split <;> rfl

theorem currentGuard_cycle (s : ControllerState) :
    currentGuard (cycleSimulationResults s) = currentGuard s := by
  unfold cycleSimulationResults
  cases hg : (s.currentType == "" || !(mapHas s.registry s.currentType))
  · simp only [hg, Bool.false_eq_true, if_false]
    show (!(s.currentType == "") && mapHas (mapUpdate _ _ _) s.currentType) = _
    rw [mapHas_mapUpdate]
    rfl
  · simp only [hg, if_true]

theorem cycleN_currentType (n : Nat) (s : ControllerState) :
    (cycleN n s).currentType = s.currentType := by
  induction n generalizing s with
  | zero => rfl
  | succ n ih => rw [cycleN, ih, cycle_currentType]

theorem currentGuard_cycleN (n : Nat) (s : ControllerState) :
    currentGuard (cycleN n s) = currentGuard s := by
  induction n generalizing s with
  | zero => rfl
  | succ n ih => rw [cycleN, ih, currentGuard_cycle]

theorem reachable_cycleN (n : Nat) (s : ControllerState) (h : Reachable s) :
    Reachable (cycleN n s) := by
  induction n generalizing s with
  | zero => exact h
  | succ n ih => exact ih _ (Reachable.cycle h)

/-! ### Helper lemmas for the claim theorems -/

theorem switch_not_has (s : ControllerState) (t : String)
    (h : mapHas s.registry t = false) : switchSimulationType s t = s := by
  unfold switchSimulationType
  simp [h]

theorem keys_map_keyfixed (reg : Registry) (g : String × SimulationResult → SimulationResult) :
    (reg.map (fun e => (e.1, g e))).map Prod.fst = reg.map Prod.fst := by
  induction reg with
  | nil => rfl
  | cons e rest ih => simp only [List.map_cons] at ih ⊢; rw [ih]

theorem hideAll_keys (s : ControllerState) :
    (hideAllSimulationResults s).registry.map Prod.fst = s.registry.map Prod.fst := by
  rw [hideAll_registry]
  exact keys_map_keyfixed s.registry _

theorem showCurrent_keys (s : ControllerState) :
    (showCurrentSimulationResult s).registry.map Prod.fst = s.registry.map Prod.fst := by
  unfold showCurrentSimulationResult
  split
  · rfl
  · show (mapUpdate (hideAllSimulationResults s).registry _ _).map Prod.fst = _
    rw [mapUpdate_keys, hideAll_keys]

theorem registryWF_showCurrent (s : ControllerState) (h : registryWF s.registry = true) :
    registryWF (showCurrentSimulationResult s).registry = true := by
  unfold showCurrentSimulationResult
  split
  · exact h
  · exact registryWF_mapUpdate _ _ _ (registryWF_hideAll s h) entryWF_showMeshAt

theorem mapGet?_currentIndex_hideAll (s : ControllerState) (k : String) :
    (mapGet? (hideAllSimulationResults s).registry k).map SimulationResult.currentIndex
      = (mapGet? s.registry k).map SimulationResult.currentIndex := by
  rw [mapGet?_hideAll]
  cases mapGet? s.registry k <;> rfl

theorem mapGet?_currentIndex_showCurrent (s : ControllerState) (k : String) :
    (mapGet? (showCurrentSimulationResult s).registry k).map SimulationResult.currentIndex
      = (mapGet? s.registry k).map SimulationResult.currentIndex := by
  unfold showCurrentSimulationResult
  split
  · rfl
  · show (mapGet? (mapUpdate (hideAllSimulationResults s).registry s.currentType showMeshAt) k).map _ = _
    by_cases hk : k = s.currentType
    · subst hk
      rw [mapGet?_mapUpdate_self, mapGet?_hideAll]
      cases hg2 : mapGet? s.registry s.currentType <;> simp [hg2, showMeshAt]
    · rw [mapGet?_mapUpdate_ne _ _ _ _ hk, mapGet?_hideAll]
      cases hg2 : mapGet? s.registry k <;> simp [hg2]

theorem all_map_keyfixed (p : String × SimulationResult → Bool) (reg : Registry)
    (g : String × SimulationResult → SimulationResult)
    (hg : ∀ e, p e = true → p (e.1, g e) = true) (h : reg.all p = true) :
    (reg.map (fun e => (e.1, g e))).all p = true := by
  induction reg with
  | nil => rfl
  | cons e rest ih =>
    simp only [List.all_cons, Bool.and_eq_true] at h
    simp only [List.map_cons, List.all_cons, Bool.and_eq_true]
    exact ⟨hg e h.1, ih h.2⟩

theorem all_mapUpdate (p : String × SimulationResult → Bool) (reg : Registry) (k : String)
    (f : SimulationResult → SimulationResult)
    (hf : ∀ e, p e = true → p (e.1, f e.2) = true) (h : reg.all p = true) :
    (mapUpdate reg k f).all p = true := by
  induction reg with
  | nil => rfl
  | cons e rest ih =>
    simp only [List.all_cons, Bool.and_eq_true] at h
    cases hb : (e.1 == k)
    · rw [show mapUpdate (e :: rest) k f = e :: mapUpdate rest k f from by simp [mapUpdate, hb]]
      simp only [List.all_cons, Bool.and_eq_true]
      exact ⟨h.1, ih h.2⟩
    · rw [show mapUpdate (e :: rest) k f = (e.1, f e.2) :: mapUpdate rest k f from by
        simp [mapUpdate, hb]]
      simp only [List.all_cons, Bool.and_eq_true]
      exact ⟨hf e h.1, ih h.2⟩

theorem collectMeshes_noError_isEmpty (files : List FileOutcome)
    (h : files.all (fun f => !outcomeIsErr f) = true) :
    (collectMeshes files).1.isEmpty = !(files.any outcomeIsOk) := by
  induction files with
  | nil => rfl
  | cons f rest ih =>
    simp only [List.all_cons, Bool.and_eq_true] at h
    cases f with
    | ok n => simp [collectMeshes, outcomeIsOk]
    | noMesh => simpa [collectMeshes, outcomeIsOk] using ih h.2
    | fetchError => simp [outcomeIsErr] at h

theorem loadTypes_keys (src : List (String × List FileOutcome)) (hsrc : srcNoError src = true)
    (hnd : (src.map Prod.fst).Nodup) :
    ∀ reg : Registry, (∀ tf ∈ src, mapHas reg tf.1 = false) →
      (loadTypes reg src).1.map Prod.fst
        = reg.map Prod.fst ++ (src.filter (fun e => e.2.any outcomeIsOk)).map Prod.fst := by
  induction src with
  | nil => intro reg _; simp [loadTypes]
  | cons e rest ih =>
    intro reg hreg
    obtain ⟨t, files⟩ := e
    simp only [srcNoError, List.all_cons, Bool.and_eq_true] at hsrc
    simp only [List.map_cons, List.nodup_cons] at hnd
    have hc : (collectMeshes files).2 = false := collectMeshes_noError files hsrc.1
    have hemp : (collectMeshes files).1.isEmpty = !(files.any outcomeIsOk) :=
      collectMeshes_noError_isEmpty files hsrc.1
    simp only [loadTypes, hc, Bool.false_eq_true, if_false]
    cases hok : files.any outcomeIsOk
    · rw [hemp, hok]
      simp only [Bool.not_false, if_true]
      have := ih (by simpa [srcNoError] using hsrc.2) hnd.2 reg
        (fun tf htf => hreg tf (List.mem_cons_of_mem _ htf))
      rw [this]
      simp [List.filter_cons, hok]
    · rw [hemp, hok]
      simp only [Bool.not_true, Bool.false_eq_true, if_false]
      have hht : mapHas reg t = false := hreg (t, files) (List.mem_cons_self _ _)
      rw [mapSet_of_not_has reg t _ hht]
      have hnext : ∀ tf ∈ rest, mapHas (reg ++ [(t, { type := t, meshes := (collectMeshes files).1, currentIndex := 0 })]) tf.1 = false := by
        intro tf htf
        have h1 : mapHas reg tf.1 = false := hreg tf (List.mem_cons_of_mem _ htf)
        have h2 : (t == tf.1) = false := by
          apply beq_eq_false_iff_ne.mpr
          intro hteq
          exact hnd.1 (hteq ▸ List.mem_map_of_mem Prod.fst htf)
        rw [mapHas_append, h1]
        simp only [Bool.false_or, mapHas, List.any_cons, List.any_nil, Bool.or_false]
        exact h2
      have := ih (by simpa [srcNoError] using hsrc.2) hnd.2 _ hnext
      rw [this]
      simp [List.filter_cons, hok]

/-! ### Claim theorems -/

/-- A state produced by a normal load: two simulation types "A" (3 variants)
and "B" (2 variants), used to instantiate the claim theorems. -/
def sampleState : ControllerState :=
  fetchSimulationResults initialState
    [("A", [FileOutcome.ok "a0", FileOutcome.ok "a1", FileOutcome.ok "a2"]),
     ("B", [FileOutcome.ok "b0", FileOutcome.ok "b1"])]

/-- C7: switchSimulationType with a type name that is not present in the
registry is a logging no-op: it leaves the entire controller state unchanged
(currentType, every currentIndex, every variant's visibility, the scene) and
does not throw. -/
theorem claim7_switch_unknown_noop (s : ControllerState) (t : String)
    (h : mapHas s.registry t = false) : switchSimulationType s t = s :=
  switch_not_has s t h

theorem claim7_witness :
    mapHas sampleState.registry "nonexistent" = false
      ∧ switchSimulationType sampleState "nonexistent" = sampleState :=
  ⟨by decide, claim7_switch_unknown_noop sampleState "nonexistent" (by decide)⟩

/-- C9: the clear() protocol (clearPreviousModels followed by emptying the
registry) is idempotent: running it twice produces the same empty state as
running it once, and it always leaves the registry empty, so running it on an
already empty registry is safe. -/
theorem claim9_clear_idempotent (s : ControllerState) :
    clearModels (clearModels s) = clearModels s ∧ (clearModels s).registry = [] := by
  constructor
  · simp [clearModels, List.filter_filter]
  · rfl

/-- C8: the menu-surface output mapping is a pure function of
(inXRSession, deviceType): the spatial 3D menu is enabled iff an XR session
is active and the device was detected as a VR headset; the flat 2D menu's
controls are visible iff not in an XR session or the device is not a VR
headset; hence exactly one of the two surfaces is visible in every state. -/
theorem claim8_ui_visibility (inXRSession : Bool) (deviceType : String) :
    (updateUIVisibility inXRSession deviceType).spatialEnabled
        = (inXRSession && (deviceType == "vr-headset"))
      ∧ (updateUIVisibility inXRSession deviceType).fullscreenVisible
          = !(inXRSession && (deviceType == "vr-headset"))
      ∧ (updateUIVisibility inXRSession deviceType).spatialEnabled
          ≠ (updateUIVisibility inXRSession deviceType).fullscreenVisible := by
  cases inXRSession <;> cases h : (deviceType == "vr-headset") <;>
    simp [updateUIVisibility, h]

/-- C2: cycleSimulationResults is a logging no-op (no state change) when the
current type is unset or has no registry entry; otherwise it keeps
currentType, availableTypes, the scene and all other registry entries
unchanged, and replaces the current entry by one whose currentIndex is
(currentIndex + 1) mod meshes.length, whose mesh names are unchanged, whose
new current mesh is shown, whose old current mesh is hidden, and whose other
meshes keep their visibility. -/
theorem claim2_cycle_step (s : ControllerState) :
    ((s.currentType = "" ∨ mapHas s.registry s.currentType = false) →
        cycleSimulationResults s = s)
    ∧ (∀ r : SimulationResult, s.currentType ≠ "" →
        mapGet? s.registry s.currentType = some r →
        r.currentIndex < r.meshes.length →
        (cycleSimulationResults s).currentType = s.currentType
        ∧ (cycleSimulationResults s).availableTypes = s.availableTypes
        ∧ (cycleSimulationResults s).sceneMeshes = s.sceneMeshes
        ∧ (∀ k, k ≠ s.currentType →
            mapGet? (cycleSimulationResults s).registry k = mapGet? s.registry k)
        ∧ ∃ r', mapGet? (cycleSimulationResults s).registry s.currentType = some r'
            ∧ r'.currentIndex = (r.currentIndex + 1) % r.meshes.length
            ∧ r'.meshes.length = r.meshes.length
            ∧ r'.meshes.map Mesh.name = r.meshes.map Mesh.name
            ∧ (flags r'.meshes)[(r.currentIndex + 1) % r.meshes.length]? = some true
            ∧ (r.currentIndex ≠ (r.currentIndex + 1) % r.meshes.length →
                (flags r'.meshes)[r.currentIndex]? = some false)
            ∧ (∀ j, j ≠ r.currentIndex → j ≠ (r.currentIndex + 1) % r.meshes.length →
                (flags r'.meshes)[j]? = (flags r.meshes)[j]?)) := by
  constructor
  · intro h
    unfold cycleSimulationResults
    have hg : (s.currentType == "" || !(mapHas s.registry s.currentType)) = true := by
      cases h with
      | inl h => simp [h]
      | inr h => simp [h]
    simp [hg]
  · intro r hne hget hidx
    have hhas := mapGet?_some_of_has s.registry s.currentType
    have hhas2 : mapHas s.registry s.currentType = true := mapHas_of_get?_some _ _ _ hget
    have hg : (s.currentType == "" || !(mapHas s.registry s.currentType)) = false := by
      simp [hhas2, beq_eq_false_iff_ne.mpr hne]
    have hcy : cycleSimulationResults s
        = { s with registry := mapUpdate s.registry s.currentType cycleResult } := by
      unfold cycleSimulationResults
      simp [hg]
    rw [hcy]
    have hn : 0 < r.meshes.length := Nat.lt_of_le_of_lt (Nat.zero_le _) hidx
    have hj : (r.currentIndex + 1) % r.meshes.length < r.meshes.length := Nat.mod_lt _ hn
    have hflags : flags (cycleResult r).meshes
        = setFlag (setFlag (flags r.meshes) r.currentIndex false)
            ((r.currentIndex + 1) % r.meshes.length) true := by
      simp [cycleResult, flags_setMeshEnabled, setMeshEnabled_length]
    refine ⟨rfl, rfl, rfl, fun k hk => mapGet?_mapUpdate_ne _ _ _ _ hk, cycleResult r, ?_,
      by simp [cycleResult], by simp [cycleResult, setMeshEnabled_length],
      by simp [cycleResult, names_setMeshEnabled], ?_, ?_, ?_⟩
    · rw [mapGet?_mapUpdate_self, hget]
      rfl
    · rw [hflags, setFlag_getElem?]
      simp only [if_pos rfl]
      have hlt : (r.currentIndex + 1) % r.meshes.length
          < (setFlag (flags r.meshes) r.currentIndex false).length := by
        rw [setFlag_length, flags_length]
        exact hj
      rw [List.getElem?_eq_getElem hlt]
      rfl
    · intro hne2
      rw [hflags, setFlag_getElem?]
      have : ¬((r.currentIndex + 1) % r.meshes.length = r.currentIndex) :=
        fun hh => hne2 hh.symm
      rw [if_neg this, setFlag_getElem?, if_pos rfl]
      have hlt : r.currentIndex < (flags r.meshes).length := by
        rw [flags_length]
        exact hidx
      rw [List.getElem?_eq_getElem hlt]
      rfl
    · intro j hj1 hj2
      rw [hflags, setFlag_getElem?,
        if_neg (fun hh => hj2 hh.symm), setFlag_getElem?, if_neg (fun hh => hj1 hh.symm)]

theorem claim2_witness :
    (cycleSimulationResults sampleState).currentType = sampleState.currentType
      ∧ mapGet? (cycleSimulationResults sampleState).registry "B"
          = mapGet? sampleState.registry "B" := by
  have h := (claim2_cycle_step sampleState).2
    { type := "A"
      meshes := [{ name := "a0", enabled := true }, { name := "a1", enabled := false },
        { name := "a2", enabled := false }]
      currentIndex := 0 }
    (by decide) (by decide) (by decide)
  exact ⟨h.1, h.2.2.2.1 "B" (by decide)⟩

/-- C3: switchSimulationType with a registered type t hides every variant of
every type, sets currentType to t and shows the t entry's
meshes[currentIndex]; the currentIndex of every entry (t included) is not
reset but persists; afterwards exactly one variant is visible, it belongs to
t, and no variant of any other type is visible. -/
theorem claim3_switch_valid (s : ControllerState) (t : String) (r : SimulationResult)
    (hnd : nodupKeys s.registry = true) (hget : mapGet? s.registry t = some r)
    (hidx : r.currentIndex < r.meshes.length) (hne : t ≠ "") :
    (switchSimulationType s t).currentType = t
    ∧ exactlyCurrentVisible (switchSimulationType s t).registry t = true
    ∧ enabledMeshCount (switchSimulationType s t).registry = 1
    ∧ (∀ k, (mapGet? (switchSimulationType s t).registry k).map SimulationResult.currentIndex
        = (mapGet? s.registry k).map SimulationResult.currentIndex) := by
  have hhas : mapHas s.registry t = true := mapHas_of_get?_some _ _ _ hget
  have hsw : switchSimulationType s t
      = showCurrentSimulationResult { hideAllSimulationResults s with currentType := t } := by
    unfold switchSimulationType
    simp [hhas]
  set u : ControllerState := { hideAllSimulationResults s with currentType := t } with hu
  have hureg : u.registry = (hideAllSimulationResults s).registry := rfl
  have huct : u.currentType = t := rfl
  have hguard : (u.currentType == "" || !(mapHas u.registry u.currentType)) = false := by
    rw [huct, hureg, mapHas_hideAll]
    simp [beq_eq_false_iff_ne.mpr hne, hhas]
  have hv : showCurrentSimulationResult u
      = { hideAllSimulationResults u with
          registry := mapUpdate (hideAllSimulationResults u).registry u.currentType showMeshAt } := by
    unfold showCurrentSimulationResult
    rw [hguard]
    simp only [Bool.false_eq_true, if_false]
  have hvis : exactlyCurrentVisible (showCurrentSimulationResult u).registry t = true := by
    rw [hv]
    show exactlyCurrentVisible
      (mapUpdate (hideAllSimulationResults u).registry u.currentType showMeshAt) t = true
    rw [huct]
    exact exactlyCurrentVisible_update_show _ t (allHidden_hideAll u)
  have hget_v : mapGet? (showCurrentSimulationResult u).registry t
      = some (showMeshAt { r with meshes := hideMeshes (hideMeshes r.meshes) }) := by
    rw [hv]
    show mapGet? (mapUpdate (hideAllSimulationResults u).registry u.currentType showMeshAt) t = _
    rw [huct, mapGet?_mapUpdate_self, mapGet?_hideAll, hureg, mapGet?_hideAll, hget]
    rfl
  have hnd_v : nodupKeys (showCurrentSimulationResult u).registry = true := by
    rw [hv]
    show nodupKeys (mapUpdate (hideAllSimulationResults u).registry u.currentType showMeshAt) = true
    rw [nodupKeys_mapUpdate, nodupKeys_hideAll, hureg, nodupKeys_hideAll]
    exact hnd
  refine ⟨?_, ?_, ?_, ?_⟩
  · rw [hsw, hv]
    exact huct
  · rw [hsw]
    exact hvis
  · rw [hsw]
    refine enabledMeshCount_exact_single _ t _ hvis hnd_v hget_v ?_
    simpa [showMeshAt, setMeshEnabled_length, hideMeshes_length] using hidx
  · intro k
    rw [hsw, mapGet?_currentIndex_showCurrent, hureg, mapGet?_currentIndex_hideAll]

theorem claim3_witness :
    (switchSimulationType sampleState "B").currentType = "B"
      ∧ enabledMeshCount (switchSimulationType sampleState "B").registry = 1 := by
  have h := claim3_switch_valid sampleState "B"
    { type := "B", meshes := [{ name := "b0", enabled := false },
        { name := "b1", enabled := false }], currentIndex := 0 }
    (by decide) (by decide) (by decide) (by decide)
  exact ⟨h.1, h.2.2.1⟩

/-- The scenario of the cycleType claim: two registered types "A" and "B"
(neither named "default"), "A" current and visible.  First registered
type. -/
def entryC6A : SimulationResult :=
  { type := "A", meshes := [{ name := "a0", enabled := true }], currentIndex := 0 }

/-- The second registered type of the cycleType scenario state. -/
def entryC6B : SimulationResult :=
  { type := "B", meshes := [{ name := "b0", enabled := false }], currentIndex := 0 }

/-- The scenario state itself. -/
def stateC6 : ControllerState :=
  { registry := [("A", entryC6A), ("B", entryC6B)]
    currentType := "A"
    availableTypes := ["A", "B"]
    sceneMeshes := [] }

/-- C6 counterexample: with types ["A", "B"] registered and "A" current, the
claim says the cycle-type operation computes the next type in discovery
order ("B") and switches to it; the keyboard trigger of
setupManualTriggerHandling instead calls switchSimulationType with
"default", which is not registered, so the state is left unchanged and in
particular differs from the spec-described cycleType result. -/
theorem claim6_counterexample :
    manualTriggerSwitch stateC6 = stateC6
      ∧ (specCycleType stateC6).currentType = "B"
      ∧ manualTriggerSwitch stateC6 ≠ specCycleType stateC6 := by
  decide

/-- C6 amended: the trigger operation of setupManualTriggerHandling is a
toggle, not a discovery-order cycle: when currentType is not "default" it
calls switchSimulationType "default"; when currentType is "default" it calls
switchSimulationType on availableTypes[1] when that exists and does nothing
otherwise; when the target type is not registered the switch leaves the
state unchanged. -/
theorem claim6_trigger_toggle (s : ControllerState) :
    (s.currentType ≠ "default" → manualTriggerSwitch s = switchSimulationType s "default")
    ∧ (s.currentType = "default" → ∀ t, s.availableTypes[1]? = some t →
        manualTriggerSwitch s = switchSimulationType s t)
    ∧ (s.currentType = "default" → s.availableTypes[1]? = none →
        manualTriggerSwitch s = s)
    ∧ (s.currentType ≠ "default" → mapHas s.registry "default" = false →
        manualTriggerSwitch s = s) := by
  refine ⟨?_, ?_, ?_, ?_⟩
  · intro h
    unfold manualTriggerSwitch
    simp [beq_eq_false_iff_ne.mpr h]
  · intro h t ht
    unfold manualTriggerSwitch
    simp [h, ht]
  · intro h ht
    unfold manualTriggerSwitch
    simp [h, ht]
  · intro h hhas
    unfold manualTriggerSwitch
    simp only [beq_eq_false_iff_ne.mpr h, Bool.false_eq_true, if_false]
    exact switch_not_has s "default" hhas

theorem claim6_witness : manualTriggerSwitch stateC6 = stateC6 :=
  (claim6_trigger_toggle stateC6).2.2.2 (by decide) (by decide)

/-- The C4 scenario source: one simulation type with 2 files, the second of
which throws while fetching. -/
def srcC4 : List (String × List FileOutcome) :=
  [("A", [FileOutcome.ok "m", FileOutcome.fetchError])]

/-- C4 counterexample: the Asset Source reports one type ("A") with 2 files
and one of them fails to fetch; the claim says the resulting
SimulationResult for that type has exactly 1 variant, but the thrown fetch
is caught by the try/catch wrapping all of fetchSimulationResults, which
aborts the load: no SimulationResult is stored for "A" at all (even though
the type was listed and made current). -/
theorem claim4_counterexample :
    mapGet? (fetchSimulationResults initialState srcC4).registry "A" = none
      ∧ (fetchSimulationResults initialState srcC4).availableTypes = ["A"]
      ∧ (fetchSimulationResults initialState srcC4).currentType = "A" := by
  decide

/-- C4 amended: only a file that loads without any usable mesh is skipped
with a log while the load of the remaining files and types continues (so one
type with a no-mesh file plus an ok file yields exactly 1 variant, and a
later type still loads); a file whose fetch throws instead aborts the whole
load (see the counterexample). -/
theorem claim4_amended (s : ControllerState) (a b t1 t2 : String)
    (hct : s.currentType = "") (hne : t1 ≠ t2) (h1 : t1 ≠ "") :
    (fetchSimulationResults s
        [(t1, [FileOutcome.noMesh, FileOutcome.ok a]), (t2, [FileOutcome.ok b])]).registry
      = [(t1, { type := t1, meshes := [{ name := a, enabled := true }], currentIndex := 0 }),
         (t2, { type := t2, meshes := [{ name := b, enabled := false }], currentIndex := 0 })] := by
  have hb12 : (t1 == t2) = false := beq_eq_false_iff_ne.mpr hne
  have hb21 : (t2 == t1) = false := beq_eq_false_iff_ne.mpr (Ne.symm hne)
  have hb1e : (t1 == "") = false := beq_eq_false_iff_ne.mpr h1
  simp [fetchSimulationResults, clearModels, hct, loadTypes, collectMeshes, mkMesh, mapSet,
    showCurrentSimulationResult, hideAllSimulationResults, hideMeshes, mapHas, mapUpdate,
    showMeshAt, setMeshEnabled, hb12, hb21, hb1e]

theorem claim4_witness :
    (fetchSimulationResults initialState
        [("A", [FileOutcome.noMesh, FileOutcome.ok "a"]), ("B", [FileOutcome.ok "b"])]).registry
      = [("A", { type := "A", meshes := [{ name := "a", enabled := true }], currentIndex := 0 }),
         ("B", { type := "B", meshes := [{ name := "b", enabled := false }], currentIndex := 0 })] :=
  claim4_amended initialState "a" "b" "A" "B" rfl (by decide) (by decide)

/-- The C5 scenario source: one reported type whose only file yields no
usable mesh. -/
def srcC5 : List (String × List FileOutcome) :=
  [("A", [FileOutcome.noMesh])]

/-- C5 counterexample: the Asset Source reports type "A" whose only file
does not resolve to a usable mesh, so the claimed filtered list is empty;
but after clear() + load the exposed availableSimulationTypes list is the
unfiltered listing ["A"] (Scene.tsx stores all reported names before any
file is resolved), while the registry stays empty. -/
theorem claim5_counterexample :
    (fetchSimulationResults initialState srcC5).availableTypes = ["A"]
      ∧ (fetchSimulationResults initialState srcC5).registry = [] := by
  decide

/-- C5 amended: after clear() followed by a load whose Asset Source reports
a non-empty type list (with no thrown fetches and distinct type names), the
exposed availableSimulationTypes list is exactly the reported type names,
unfiltered; it is the registry keys that are the reported names filtered to
the types with at least one resolvable file, in discovery order. -/
theorem claim5_amended (s : ControllerState) (src : List (String × List FileOutcome))
    (hne : src ≠ []) (hsrc : srcNoError src = true) (hnd : (src.map Prod.fst).Nodup) :
    (fetchSimulationResults s src).availableTypes = src.map Prod.fst
      ∧ (fetchSimulationResults s src).registry.map Prod.fst
          = (src.filter (fun e => e.2.any outcomeIsOk)).map Prod.fst := by
  have hemp : src.isEmpty = false := by
    cases src with
    | nil => exact absurd rfl hne
    | cons e rest => rfl
  unfold fetchSimulationResults
  simp only [hemp, Bool.false_eq_true, if_false]
  have hab : (loadTypes [] src).2.2 = false := loadTypes_noAbort src hsrc []
  have hkeys : (loadTypes [] src).1.map Prod.fst
      = ([] : Registry).map Prod.fst
          ++ (src.filter (fun e => e.2.any outcomeIsOk)).map Prod.fst :=
    loadTypes_keys src hsrc hnd [] (fun tf _ => rfl)
  rcases hLT : loadTypes [] src with ⟨reg, orphans, ab⟩
  rw [hLT] at hab hkeys
  simp only at hab hkeys
  subst hab
  simp only
  constructor
  · rw [showCurrent_availableTypes]
  · rw [showCurrent_keys]
    simpa using hkeys

theorem claim5_witness :
    (fetchSimulationResults initialState
        [("A", [FileOutcome.ok "x"]), ("B", [FileOutcome.noMesh])]).availableTypes = ["A", "B"]
      ∧ (fetchSimulationResults initialState
          [("A", [FileOutcome.ok "x"]), ("B", [FileOutcome.noMesh])]).registry.map Prod.fst
          = ["A"] := by
  have h := claim5_amended initialState
    [("A", [FileOutcome.ok "x"]), ("B", [FileOutcome.noMesh])]
    (by decide) (by decide) (by decide)
  exact ⟨h.1, h.2⟩

theorem all_p_showCurrent (p : String × SimulationResult → Bool)
    (hhide : ∀ e, p e = true → p (e.1, { e.2 with meshes := hideMeshes e.2.meshes }) = true)
    (hshow : ∀ e, p e = true → p (e.1, showMeshAt e.2) = true)
    (s : ControllerState) (h : s.registry.all p = true) :
    (showCurrentSimulationResult s).registry.all p = true := by
  unfold showCurrentSimulationResult
  split
  · exact h
  · show (mapUpdate (hideAllSimulationResults s).registry _ showMeshAt).all p = true
    refine all_mapUpdate _ _ _ _ (fun e he => hshow e he) ?_
    rw [hideAll_registry]
    exact all_map_keyfixed _ _ _ (fun e he => hhide e he) h

theorem registryWF_fetch (s : ControllerState) (src : List (String × List FileOutcome)) :
    registryWF (fetchSimulationResults s src).registry = true := by
  unfold fetchSimulationResults
  cases hemp : src.isEmpty
  · simp only [hemp, Bool.false_eq_true, if_false]
    have hbase : registryWF (loadTypes [] src).1 = true := by
      refine loadTypes_pres _ (fun t ms hms _ => ?_) src [] rfl
      have hpos : 0 < ms.length := by
        apply List.length_pos.mpr
        intro hh
        rw [hh] at hms
        cases hms
      simp [entryWF, hpos]
    rcases hLT : loadTypes [] src with ⟨reg, orphans, ab⟩
    rw [hLT] at hbase
    simp only at hbase
    cases ab
    · simp only
      exact registryWF_showCurrent _ hbase
    · simp only
      exact hbase
  · simp only [hemp, if_true]
    rfl

theorem fetch_entry_fields (s : ControllerState) (src : List (String × List FileOutcome))
    (k : String) (r : SimulationResult)
    (hget : mapGet? (fetchSimulationResults s src).registry k = some r) :
    r.currentIndex = 0 ∧ r.meshes ≠ [] := by
  have hall : ((fetchSimulationResults s src).registry).all
      (fun e => (e.2.currentIndex == 0) && decide (0 < e.2.meshes.length)) = true := by
    unfold fetchSimulationResults
    cases hemp : src.isEmpty
    · simp only [hemp, Bool.false_eq_true, if_false]
      have hbase : ((loadTypes [] src).1).all
          (fun e => (e.2.currentIndex == 0) && decide (0 < e.2.meshes.length)) = true := by
        refine loadTypes_pres _ (fun t ms hms _ => ?_) src [] rfl
        have hpos : 0 < ms.length := by
          apply List.length_pos.mpr
          intro hh
          rw [hh] at hms
          cases hms
        simp [hpos]
      rcases hLT : loadTypes [] src with ⟨reg, orphans, ab⟩
      rw [hLT] at hbase
      simp only at hbase
      cases ab
      · simp only
        refine all_p_showCurrent _ (fun e he => ?_) (fun e he => ?_) _ hbase
        · simpa [hideMeshes_length] using he
        · simpa [showMeshAt, setMeshEnabled_length] using he
      · simp only
        exact hbase
    · simp only [hemp, if_true]
      rfl
  have hmem := mapGet?_some_mem _ _ _ hget
  rw [List.all_eq_true] at hall
  have hp := hall (k, r) hmem
  simp only [Bool.and_eq_true, beq_iff_eq, decide_eq_true_eq] at hp
  exact ⟨hp.1, List.length_pos.mp hp.2⟩

theorem registryWF_cycle (s : ControllerState) (h : registryWF s.registry = true) :
    registryWF (cycleSimulationResults s).registry = true := by
  unfold cycleSimulationResults
  split
  · exact h
  · exact registryWF_mapUpdate _ _ _ h entryWF_cycleResult

theorem registryWF_switch (s : ControllerState) (t : String)
    (h : registryWF s.registry = true) :
    registryWF (switchSimulationType s t).registry = true := by
  unfold switchSimulationType
  split
  · exact h
  · exact registryWF_showCurrent _ (registryWF_hideAll s h)

theorem registryWF_trigger (s : ControllerState) (h : registryWF s.registry = true) :
    registryWF (manualTriggerSwitch s).registry = true := by
  unfold manualTriggerSwitch
  cases hd : (s.currentType == "default")
  · simp only [hd, Bool.false_eq_true, if_false]
    exact registryWF_switch s "default" h
  · simp only [hd, if_true]
    cases hv : s.availableTypes[1]? with
    | some t => exact registryWF_switch s t h
    | none => exact h

theorem mapGet?_currentIndex_switch (s : ControllerState) (t k : String) :
    (mapGet? (switchSimulationType s t).registry k).map SimulationResult.currentIndex
      = (mapGet? s.registry k).map SimulationResult.currentIndex := by
  unfold switchSimulationType
  split
  · rfl
  · rw [mapGet?_currentIndex_showCurrent]
    exact mapGet?_currentIndex_hideAll s k

/-- C10: registry well-formedness.  A load stores a SimulationResult only
when it resolved at least one mesh and initialises its currentIndex to 0;
after any load every stored entry satisfies 0 <= currentIndex <
meshes.length; cycleSimulationResults, switchSimulationType, the keyboard
trigger and the clear() protocol all preserve that bound; and
switchSimulationType never changes any entry's currentIndex.  Hence the
spec's undefined-behaviour state (an empty variants list) and out-of-bounds
indexing are unreachable through the public operations. -/
theorem claim10_registry_wellformed (s : ControllerState)
    (src : List (String × List FileOutcome)) (t : String) :
    registryWF (fetchSimulationResults s src).registry = true
    ∧ (∀ k r, mapGet? (fetchSimulationResults s src).registry k = some r →
        r.currentIndex = 0 ∧ r.meshes ≠ [])
    ∧ (registryWF s.registry = true → registryWF (cycleSimulationResults s).registry = true)
    ∧ (registryWF s.registry = true → registryWF (switchSimulationType s t).registry = true)
    ∧ registryWF (clearModels s).registry = true
    ∧ (registryWF s.registry = true → registryWF (manualTriggerSwitch s).registry = true)
    ∧ (∀ k, (mapGet? (switchSimulationType s t).registry k).map SimulationResult.currentIndex
        = (mapGet? s.registry k).map SimulationResult.currentIndex) :=
  ⟨registryWF_fetch s src, fetch_entry_fields s src,
    registryWF_cycle s, registryWF_switch s t, rfl, registryWF_trigger s,
    mapGet?_currentIndex_switch s t⟩

theorem claim10_witness :
    registryWF (fetchSimulationResults sampleState srcC4).registry = true
      ∧ registryWF (cycleSimulationResults sampleState).registry = true := by
  have h := claim10_registry_wellformed sampleState srcC4 "B"
  exact ⟨h.1, h.2.2.1 (by decide)⟩

/-- C1: the global visibility invariant.  In every reachable controller
state (operations applied from the initial state, with asset sources that
behave as spec §6 describes: every file yields a mesh or a skip — the
thrown-fetch abort path is the separate load-failure analysis) at most one
variant across all simulation types is visible, including after any number
of cycleSimulationResults calls; and whenever the current type is set and
registered (its entry being non-empty by registry well-formedness), after
any number of cycleSimulationResults calls exactly one variant is visible
and it is the current entry's meshes[currentIndex]
(exactlyCurrentVisible). -/
theorem claim1_global_visibility (s : ControllerState) (hs : Reachable s) :
    (∀ n, enabledMeshCount (cycleN n s).registry ≤ 1)
    ∧ (currentGuard s = true →
        ∀ n, enabledMeshCount (cycleN n s).registry = 1
          ∧ exactlyCurrentVisible (cycleN n s).registry (cycleN n s).currentType = true) := by
  have hInv : ∀ n, controllerInv (cycleN n s) = true :=
    fun n => reachable_controllerInv (reachable_cycleN n s hs)
  have hcount : ∀ n, currentGuard s = true →
      enabledMeshCount (cycleN n s).registry = 1
        ∧ exactlyCurrentVisible (cycleN n s).registry (cycleN n s).currentType = true := by
    intro n hg
    have hI := hInv n
    have hgn : currentGuard (cycleN n s) = true := by
      rw [currentGuard_cycleN]
      exact hg
    simp only [controllerInv, hgn, if_true, Bool.and_eq_true] at hI
    have hhas : mapHas (cycleN n s).registry (cycleN n s).currentType = true := by
      have hgn2 := hgn
      simp only [currentGuard, Bool.and_eq_true] at hgn2
      exact hgn2.2
    obtain ⟨r0, hr0⟩ := mapGet?_some_of_has _ _ hhas
    have hr0wf : entryWF r0 = true := by
      have hmem := mapGet?_some_mem _ _ _ hr0
      have hwf := hI.1.1
      rw [registryWF, List.all_eq_true] at hwf
      exact hwf _ hmem
    have hidx : r0.currentIndex < r0.meshes.length := by
      simp only [entryWF, Bool.and_eq_true, decide_eq_true_eq] at hr0wf
      exact hr0wf.2
    exact ⟨enabledMeshCount_exact_single _ _ _ hI.2 hI.1.2 hr0 hidx, hI.2⟩
  constructor
  · intro n
    cases hg : currentGuard s
    · have hI := hInv n
      have hgn : currentGuard (cycleN n s) = false := by
        rw [currentGuard_cycleN]
        exact hg
      simp only [controllerInv, hgn, Bool.false_eq_true, if_false, Bool.and_eq_true] at hI
      rw [enabledMeshCount_allHidden _ hI.2]
      exact Nat.zero_le 1
    · exact le_of_eq (hcount n hg).1
  · intro hg n
    exact hcount n hg

theorem claim1_witness :
    enabledMeshCount (cycleN 2 sampleState).registry = 1
      ∧ exactlyCurrentVisible (cycleN 2 sampleState).registry
          (cycleN 2 sampleState).currentType = true := by
  have hreach : Reachable sampleState := Reachable.fetch Reachable.init _ (by decide)
  exact (claim1_global_visibility sampleState hreach).2 (by decide) 2

end PipelineWebXR
